import Mathlib

/-!
Verification development for the corosync/pacemaker bootstrap action plugin
(`chroma_agent/action_plugins/manage_corosync.py`).

The Python source is shallowly embedded below.  External collaborators
(`shell.run`, packet capture, the filesystem) are passed in as explicit
oracles / state, and the `netaddr` library's `IPNetwork` / `IPAddress`
comparison semantics (lexicographic comparison of `sort_key` tuples) are
modelled explicitly on 32-bit IPv4 values represented as `Nat`.
-/

namespace ManageCorosync

/-! ## Multicast port pool (`AutoDetectedInterface.find_unused_port`) -/

/-- Python 2 `range(start, stop, step)` for a positive `step`: the arithmetic
progression `start, start+step, ...` of all elements strictly below `stop`. -/
def pythonRange (start stop step : Nat) : List Nat :=
  List.range' start ((stop - start + (step - 1)) / step) step

/-- The candidate pool `ports = range(1, 65535, 2)` built at the top of
`find_unused_port`. -/
def initialPorts : List Nat := pythonRange 1 65535 2

/-- The pool after the capture window: for every observed packet the code runs
`ports.remove(tgt_port)` (removing the first occurrence, ignoring `ValueError`
when absent, which is exactly `List.erase`).  The returned port is
`choice(ports)`, i.e. some element of this remaining pool. -/
def remainingPorts (observed : List Nat) : List Nat :=
  observed.foldl (fun pool p => pool.erase p) initialPorts

/-! ## Transaction retrier (`cibadmin`) -/

/-- Observable outcome of the `cibadmin` retry loop: final exit code, number of
`shell.run` invocations, number of `sleep(1)` calls, and the captured output of
the last invocation. -/
structure CibadminResult where
  rc : Nat
  calls : Nat
  sleeps : Nat
  stdout : String
  stderr : String
deriving Repr, DecidableEq

/-- The `while rc == 10 and n > 0` loop of `cibadmin`.  `runs i` is the result
of the `(i+1)`-st invocation of `shell.run(['cibadmin'] + command_args)`.
The loop body runs the command; on exit code 0 it breaks; otherwise it sleeps
one second, decrements `n` and re-tests the loop condition. -/
def cibadminLoop (runs : Nat → Nat × String × String) :
    Nat → Nat → Nat → Nat → String → String → CibadminResult
  | rc, 0, calls, sleeps, out, err => ⟨rc, calls, sleeps, out, err⟩
  | rc, n + 1, calls, sleeps, out, err =>
    if rc = 10 then
      match runs calls with
      | (rc2, out2, err2) =>
        if rc2 = 0 then ⟨rc2, calls + 1, sleeps, out2, err2⟩
        else cibadminLoop runs rc2 n (calls + 1) (sleeps + 1) out2 err2
    else ⟨rc, calls, sleeps, out, err⟩

/-- The full retry loop as entered by `cibadmin`: `n = 100`, `rc = 10`. -/
def cibadminRun (runs : Nat → Nat × String × String) : CibadminResult :=
  cibadminLoop runs 10 100 0 0 "" ""

/-- `cibadmin(command_args)`: after the loop, a nonzero exit code raises
`RuntimeError` carrying the exit code and captured output; otherwise the
`(rc, stdout, stderr)` tuple is returned. -/
def cibadmin (runs : Nat → Nat × String × String) :
    Except (Nat × String × String) (Nat × String × String) :=
  let r := cibadminRun runs
  if r.rc ≠ 0 then Except.error (r.rc, r.stdout, r.stderr)
  else Except.ok (r.rc, r.stdout, r.stderr)

/-! ## netaddr model and `AutoDetectedInterface.find_subnet` -/

/-- The 32-bit value of the dotted quad `a.b.c.d`. -/
def ipv4 (a b c d : Nat) : Nat := ((a * 256 + b) * 256 + c) * 256 + d

/-- Model of `netaddr.IPNetwork`: `value` is the (32-bit) address appearing
before the slash, `prefixlen` the CIDR prefix length. -/
structure IPNetwork4 where
  value : Nat
  prefixlen : Nat
deriving Repr, DecidableEq

/-- `IPNetwork.size`: number of addresses spanned. -/
def netSize (n : IPNetwork4) : Nat := 2 ^ (32 - n.prefixlen)

/-- `IPNetwork.first`: the network base address (`value` with host bits
cleared). -/
def netFirst (n : IPNetwork4) : Nat := n.value - n.value % netSize n

/-- `IPNetwork.last`: the highest address of the network. -/
def netLast (n : IPNetwork4) : Nat := netFirst n + (netSize n - 1)

/-- `IPNetwork.sort_key()` minus the shared version component:
`(first, width - num_bits(size), value - first)`; for a `/p` IPv4 network the
middle component is `p - 1` (as an integer, so `-1` for `/0`). -/
def netSortKey (n : IPNetwork4) : Nat × Int × Nat :=
  (netFirst n, (n.prefixlen : Int) - 1, n.value - netFirst n)

/-- Lexicographic `<` on `sort_key` tuples of two networks. -/
def keyLt (a b : Nat × Int × Nat) : Bool :=
  decide (a.1 < b.1 ∨ (a.1 = b.1 ∧ (a.2.1 < b.2.1 ∨ (a.2.1 = b.2.1 ∧ a.2.2 < b.2.2))))

/-- `IPNetwork >= IPNetwork` (netaddr `BaseIP.__ge__`: `sort_key() >= sort_key()`,
which for the total lexicographic order is the negation of `<`). -/
def netGeNet (m n : IPNetwork4) : Bool := !(keyLt (netSortKey m) (netSortKey n))

/-- `IPNetwork < IPAddress` (netaddr compares the network's 4-tuple
`(version, first, p - 1, hostbits)` with the address's 3-tuple
`(version, value, 32)` elementwise; if the first two comparisons tie, the
longer tuple is the greater, so the network is never `<` in that case). -/
def netLtAddr (n : IPNetwork4) (a : Nat) : Bool :=
  decide (netFirst n < a ∨ (netFirst n = a ∧ (n.prefixlen : Int) - 1 < 32))

/-- `AutoDetectedInterface.find_subnet(network, prefixlen)`: choose a shadow
RFC-1918 network of the same prefix length. -/
def find_subnet (network : Nat) (prefixlen : Nat) : IPNetwork4 :=
  if netGeNet ⟨network, prefixlen⟩ ⟨ipv4 10 0 0 0, 8⟩ &&
      netLtAddr ⟨network, prefixlen⟩ (ipv4 10 255 255 255) then
    if netGeNet ⟨network, prefixlen⟩ ⟨ipv4 10 128 0 0, 9⟩ then
      ⟨ipv4 10 0 0 0, prefixlen⟩
    else ⟨ipv4 10 128 0 0, prefixlen⟩
  else ⟨ipv4 10 0 0 0, prefixlen⟩

/-- Two networks overlap when their address ranges intersect. -/
def netOverlap (a b : IPNetwork4) : Prop :=
  netFirst a ≤ netLast b ∧ netFirst b ≤ netLast a

/-- Membership of an address in one of the three RFC 1918 private blocks. -/
def inRFC1918 (addr : Nat) : Prop :=
  (ipv4 10 0 0 0 ≤ addr ∧ addr ≤ ipv4 10 255 255 255) ∨
  (ipv4 172 16 0 0 ≤ addr ∧ addr ≤ ipv4 172 31 255 255) ∨
  (ipv4 192 168 0 0 ≤ addr ∧ addr ≤ ipv4 192 168 255 255)

/-- Modelled from the spec: the stated ring1-shadow policy.  "If ring0's
network falls within 10.0.0.0/8, pick the opposite half (10.0.0.0/prefixLen if
ring0 is in the upper half 10.128.0.0/9 or above; 10.128.0.0/prefixLen
otherwise); if ring0's network lies outside 10.0.0.0/8 entirely, default to
10.0.0.0/prefixLen." -/
def deriveRing1SubnetPolicy (addr p : Nat) : IPNetwork4 :=
  if ipv4 10 0 0 0 ≤ netFirst ⟨addr, p⟩ ∧ netLast ⟨addr, p⟩ ≤ ipv4 10 255 255 255 then
    if ipv4 10 128 0 0 ≤ netFirst ⟨addr, p⟩ then ⟨ipv4 10 0 0 0, p⟩
    else ⟨ipv4 10 128 0 0, p⟩
  else ⟨ipv4 10 0 0 0, p⟩

/-- The input network, viewed at its prefix length, lies inside 10.0.0.0/8. -/
def insideTen8 (addr p : Nat) : Prop :=
  ipv4 10 0 0 0 ≤ netFirst ⟨addr, p⟩ ∧ netLast ⟨addr, p⟩ ≤ ipv4 10 255 255 255

/-- The input network, viewed at its prefix length, is disjoint from
10.0.0.0/8. -/
def disjointTen8 (addr p : Nat) : Prop :=
  netLast ⟨addr, p⟩ < ipv4 10 0 0 0 ∨ ipv4 10 255 255 255 < netFirst ⟨addr, p⟩

/-! ## Ring topology (`CorosyncRingInterface.ring1`,
`AutoDetectedInterface.generate_ring1_network_config`) -/

/-- The fields of ring0 consumed by `generate_ring1_network_config` and by the
`ring1` guard. -/
structure Ring0Info where
  ipv4_address : Nat
  ipv4_prefixlen : Nat
deriving Repr, DecidableEq

/-- `ring0.ipv4_network`: the address with host bits cleared. -/
def ring0_network (r : Ring0Info) : Nat :=
  r.ipv4_address - r.ipv4_address % 2 ^ (32 - r.ipv4_prefixlen)

/-- `ring0.ipv4_hostmask` (netaddr `IPNetwork.hostmask` = size - 1). -/
def ring0_hostmask (r : Ring0Info) : Nat := 2 ^ (32 - r.ipv4_prefixlen) - 1

/-- `AutoDetectedInterface.generate_ring1_network_config(ring0)`: derive the
ring1 address `(hostmask AND ring0_address) OR shadow_subnet.ip` and the shadow
prefix length.  There is no prefix-length guard on this path. -/
def generate_ring1_network_config (r : Ring0Info) : Nat × Nat :=
  ((ring0_hostmask r &&& r.ipv4_address) |||
     (find_subnet (ring0_network r) r.ipv4_prefixlen).value,
   (find_subnet (ring0_network r) r.ipv4_prefixlen).prefixlen)

/-- The ring1 interface produced by the manual-override constructor. -/
structure ManualRing1 where
  device : String
  address : String
  prefixlen : String
  mcastport : Nat
  ringnumber : Nat
deriving Repr, DecidableEq

/-- `CorosyncRingInterface.ring1(device, ipaddr, prefix_len, mcast_port)`:
raises `RuntimeError` when `ring0.ipv4_prefixlen < 9`, otherwise builds the
ring1 interface with the supplied values verbatim. -/
def corosync_ring1 (ring0_prefixlen : Nat) (device ipaddr prefixLenArg : String)
    (mcast_port : Nat) : Except String ManualRing1 :=
  if ring0_prefixlen < 9 then
    Except.error "Network cannot be bigger than /9"
  else
    Except.ok
      { device := device, address := ipaddr, prefixlen := prefixLenArg,
        mcastport := mcast_port, ringnumber := 1 }

/-! ## Config writer (`_render_config_file`) -/

/-- The `errno.ENOENT` constant. -/
def ENOENT : Nat := 2

/-- The two files `_render_config_file` may touch at the target location:
the target path and its `.old` sibling.  `none` means the file is absent. -/
structure FsState where
  target : Option String
  old : Option String
deriving Repr, DecidableEq

/-- Result of one `_render_config_file` call: the errno it re-raised (if any),
the final filesystem state, and the successive contents observable at the
target path by an external reader (one entry per atomic filesystem step that
an observer could interleave with). -/
structure RenderOutcome where
  raised : Option Nat
  fs : FsState
  targetStates : List (Option String)
deriving Repr, DecidableEq

/-- `_render_config_file(path, config)`.  Steps, as in the source: (1) mkstemp,
(2) os.write of the rendered content to the temp file (neither touches the
target path); (3) `shutil.move(path, path + ".old")`, catching `IOError` and
ignoring it exactly when `errno == ENOENT`; (4) os.close; (5)
`shutil.copy(tmpname, path)`, which opens the destination for writing
(truncating it to empty) and then copies the content in.  `moveFault` injects
the `IOError` errno raised by step (3), `none` meaning the move behaves
normally on the given state (succeeding, or raising `ENOENT` when the target
is absent). -/
def render_config_file (fs0 : FsState) (config : String) (moveFault : Option Nat) :
    RenderOutcome :=
  match moveFault with
  | some e =>
    if e = ENOENT then
      { raised := none, fs := { target := some config, old := fs0.old },
        targetStates := [fs0.target, fs0.target, some "", some config] }
    else
      { raised := some e, fs := fs0, targetStates := [fs0.target, fs0.target] }
  | none =>
    match fs0.target with
    | some c =>
      { raised := none, fs := { target := some config, old := some c },
        targetStates := [some c, none, some "", some config] }
    | none =>
      { raised := none, fs := { target := some config, old := fs0.old },
        targetStates := [none, none, some "", some config] }

/-! ## Python string helpers (for `get_cluster_size` and `delete_node`) -/

/-- The characters stripped by Python 2 `str.rstrip()`. -/
def pySpaceChars : List Char := [' ', '\t', '\n', '\r', '\x0b', '\x0c']

/-- Python `s.rstrip()` on a string modelled as a character list. -/
def pyRstrip (s : List Char) : List Char :=
  (s.reverse.dropWhile (fun c => c ∈ pySpaceChars)).reverse

/-- Python `s.split(sep)` for a single-character separator: splits at every
occurrence, keeping empty fields (`"".split(c) = [""]`). -/
def pySplit (sep : Char) : List Char → List (List Char)
  | [] => [[]]
  | c :: rest =>
    match pySplit sep rest with
    | [] => [[]]
    | t :: ts => if c = sep then [] :: t :: ts else (c :: t) :: ts

/-- A string field that contains no whitespace characters (so that joining
with separators and re-splitting recovers it). -/
def okField (f : List Char) : Prop := ∀ c ∈ f, c ∉ pySpaceChars

/-- One row of `crm_node -l` output for node `(id, name, status)`. -/
def renderNodeLine (t : List Char × List Char × List Char) : List Char :=
  t.1 ++ (' ' :: (t.2.1 ++ (' ' :: t.2.2)))

/-- Join lines with a separator character (no trailing separator). -/
def joinWith (sep : Char) : List (List Char) → List Char
  | [] => []
  | [l] => l
  | l :: ls => l ++ sep :: joinWith sep ls

/-- The per-line loop of `get_cluster_size`: each line is unpacked as
`node_id, name, status = line.split(" ")` (any other shape raises, modelled as
`none`) and counted when the status is `member` or `lost`. -/
def countMemberLost : List (List Char) → Option Nat
  | [] => some 0
  | line :: rest =>
    match pySplit ' ' line with
    | [_, _, status] =>
      match countMemberLost rest with
      | none => none
      | some n =>
        some ((if status = "member".toList ∨ status = "lost".toList then 1 else 0) + n)
    | _ => none

/-- `get_cluster_size()`, parameterized by the stdout of
`shell.run(["crm_node", "-l"])`: `stdout.rstrip().split('\n')`, then the
counting loop. -/
def get_cluster_size (stdout : List Char) : Option Nat :=
  countMemberLost (pySplit '\n' (pyRstrip stdout))

/-! ## `delete_node` target selection -/

/-- The `for line in stdout.split('\n')` loop of `delete_node`: every line is
unpacked as `node_id, name, status` (failure to unpack raises, modelled by
`Except.error`), and the loop breaks at the first line whose name matches;
`node_id` keeps the value assigned by the most recent iteration. -/
def deleteNodeLoop (nodename : List Char) :
    List (List Char) → Option (List Char) → Except Unit (Option (List Char))
  | [], acc => Except.ok acc
  | line :: rest, _ =>
    match pySplit ' ' line with
    | [nid, name, _] =>
      if name = nodename then Except.ok (some nid)
      else deleteNodeLoop nodename rest (some nid)
    | _ => Except.error ()

/-- The node id that `delete_node(nodename)` passes to
`crm_node --force -R`, given the raw stdout of `crm_node -l` (note: no
`rstrip` here, unlike `get_cluster_size`). -/
def delete_node_target (stdout nodename : List Char) : Except Unit (Option (List Char)) :=
  deleteNodeLoop nodename (pySplit '\n' stdout) none

/-! ## `configure_pacemaker` fencing bootstrap -/

/-- Module constant `RSRC_FAIL_WINDOW`. -/
def RSRC_FAIL_WINDOW : String := "20m"

/-- Module constant `RSRC_FAIL_MIGRATION_COUNT`. -/
def RSRC_FAIL_MIGRATION_COUNT : String := "3"

/-- The fencing-primitive create command. -/
def stFencingCreate : List String :=
  ["crm", "-F", "configure", "primitive", "st-fencing", "stonith:fence_chroma"]

/-- The fencing-primitive existence check issued when the create fails. -/
def stFencingShow : List String := ["crm", "resource", "show", "st-fencing"]

/-- The two `shell.run` commands of `_unconfigure_fencing` (results ignored). -/
def unconfigureFencingCmds : List (List String) :=
  [["crm", "resource", "stop", "st-fencing"],
   ["crm", "configure", "delete", "st-fencing"]]

/-- The cluster-property and resource-default commands applied after a
successful fencing-primitive create. -/
def crm_configure_cmds (nqp : String) : List (List String) :=
  [["crm", "configure", "property", "no-quorum-policy=\"" ++ nqp ++ "\""],
   ["crm", "configure", "property", "symmetric-cluster=\"true\""],
   ["crm", "configure", "property", "cluster-infrastructure=\"openais\""],
   ["crm", "configure", "property", "stonith-enabled=\"true\""],
   ["crm", "configure", "rsc_defaults", "resource-stickiness=1000"],
   ["crm", "configure", "rsc_defaults", "failure-timeout=" ++ RSRC_FAIL_WINDOW],
   ["crm", "configure", "rsc_defaults",
    "migration-threshold=" ++ RSRC_FAIL_MIGRATION_COUNT]]

/-- `shell.try_run` over a command sequence: issue commands in order, stopping
at (and recording) the first nonzero exit, which raises.  Returns the issued
commands and whether an exception was raised. -/
def tryRunSeq (run : List String → Nat × String × String) :
    List (List String) → List (List String) × Bool
  | [] => ([], false)
  | c :: rest =>
    if (run c).1 = 0 then
      let r := tryRunSeq run rest
      (c :: r.1, r.2)
    else ([c], true)

/-- Observable outcome of the fencing/properties tail of `configure_pacemaker`:
the commands issued (in order) and whether the function raised. -/
structure PacemakerTailResult where
  trace : List (List String)
  raised : Bool
deriving Repr, DecidableEq

/-- The tail of `configure_pacemaker`, from the quorum-policy computation on:
compute `no_quorum_policy` from `get_cluster_size()` (whose `crm_node -l`
stdout is `crmNodeOut`), run `_unconfigure_fencing`, attempt the fencing
primitive create unconditionally; if it fails, check `crm resource show
st-fencing` -- exit 0 means another member won the race, so return without
raising and without the property/defaults commands, otherwise re-raise; on a
successful create, apply the property and resource-default commands with
`try_run`. -/
def configure_pacemaker_tail (run : List String → Nat × String × String)
    (crmNodeOut : List Char) : PacemakerTailResult :=
  match get_cluster_size crmNodeOut with
  | none => { trace := [], raised := true }
  | some sz =>
    if (run stFencingCreate).1 = 0 then
      { trace := unconfigureFencingCmds ++ stFencingCreate ::
          (tryRunSeq run
            (crm_configure_cmds (if sz > 2 then "stop" else "ignore"))).1,
        raised := (tryRunSeq run
          (crm_configure_cmds (if sz > 2 then "stop" else "ignore"))).2 }
    else
      if (run stFencingShow).1 = 0 then
        { trace := unconfigureFencingCmds ++ [stFencingCreate, stFencingShow],
          raised := false }
      else
        { trace := unconfigureFencingCmds ++ [stFencingCreate, stFencingShow],
          raised := true }

/-! ## `configure_corosync` ring1 selection -/

/-- Python truthiness of an optional string argument (`None` and `""` are
falsy). -/
def pyTruthy : Option String → Bool
  | none => false
  | some s => !s.isEmpty

/-- How `configure_corosync` proceeds after its ring1-argument branching. -/
inductive CorosyncPlanOutcome where
  /-- All four override arguments truthy: `CorosyncRingInterface.ring1` is
  called with them. -/
  | manualRing1 (iface ipaddr subnet port : String)
  /-- Fallback: `AutoDetectedInterface.detect_ring1(ring0, ipaddr, subnet)`. -/
  | autoRing1 (ipaddr subnet : Option String)
  /-- `ring1_subnet` was never assigned and is then read:
  `UnboundLocalError`. -/
  | unboundLocalError
deriving Repr, DecidableEq

/-- The argument branching at the top of `configure_corosync`: the local
`ring1_subnet` is assigned only by the `if not ring1_ipaddr and not
ring1_netmask` branch (auto-generation, whose results are abstracted as
`auto_ipaddr` / `auto_subnet`) or by the `elif ring1_netmask` branch
(prefix length of the given netmask, abstracted as `netmaskPrefixOf`).  Both
of the following branches read `ring1_subnet` (the manual branch in its
condition or the auto branch in its call), so an unassigned `ring1_subnet`
raises `UnboundLocalError` either way. -/
def configure_corosync_ring1_selection
    (ring1_iface ring1_ipaddr ring1_netmask mcast_port : Option String)
    (auto_ipaddr auto_subnet : String) (netmaskPrefixOf : String → String) :
    CorosyncPlanOutcome :=
  let assigned : Option (Option String × Option String) :=
    if !pyTruthy ring1_ipaddr && !pyTruthy ring1_netmask then
      some (some auto_ipaddr, some auto_subnet)
    else if pyTruthy ring1_netmask then
      some (ring1_ipaddr, some (netmaskPrefixOf (ring1_netmask.getD "")))
    else none
  match assigned with
  | none => CorosyncPlanOutcome.unboundLocalError
  | some (ipaddr2, subnet2) =>
    if pyTruthy ring1_iface && pyTruthy ipaddr2 && pyTruthy subnet2 &&
        pyTruthy mcast_port then
      CorosyncPlanOutcome.manualRing1 (ring1_iface.getD "") (ipaddr2.getD "")
        (subnet2.getD "") (mcast_port.getD "")
    else CorosyncPlanOutcome.autoRing1 ipaddr2 subnet2

/-- Decidability of network overlap (for concrete evaluation). -/
instance netOverlapDecidable (a b : IPNetwork4) : Decidable (netOverlap a b) := by
  unfold netOverlap; infer_instance

/-- Decidability of RFC 1918 membership. -/
instance inRFC1918Decidable (a : Nat) : Decidable (inRFC1918 a) := by
  unfold inRFC1918; infer_instance

/-- Decidability of containment in 10.0.0.0/8. -/
instance insideTen8Decidable (a p : Nat) : Decidable (insideTen8 a p) := by
  unfold insideTen8; infer_instance

/-- Decidability of disjointness from 10.0.0.0/8. -/
instance disjointTen8Decidable (a p : Nat) : Decidable (disjointTen8 a p) := by
  unfold disjointTen8; infer_instance

/-- Decidability of the whitespace-free field predicate. -/
instance okFieldDecidable (f : List Char) : Decidable (okField f) := by
  unfold okField; infer_instance

/-! ## Lemmas: the multicast port pool -/

theorem initialPorts_eq : initialPorts = List.range' 1 32767 2 := rfl

theorem mem_initialPorts {p : Nat} :
    p ∈ initialPorts ↔ p % 2 = 1 ∧ 1 ≤ p ∧ p ≤ 65533 := by
  rw [initialPorts_eq, List.mem_range']
  constructor
  · rintro ⟨i, hi, rfl⟩
    omega
  · rintro ⟨h1, h2, h3⟩
    exact ⟨(p - 1) / 2, by omega, by omega⟩

theorem initialPorts_nodup : initialPorts.Nodup := by
  rw [initialPorts_eq]
  exact List.nodup_range' 1 32767 2 (by norm_num)

theorem foldl_erase_sublist (obs : List Nat) :
    ∀ pool : List Nat, (obs.foldl (fun l p => l.erase p) pool).Sublist pool := by
  induction obs with
  | nil => intro pool; exact List.Sublist.refl _
  | cons o rest ih =>
    intro pool
    exact (ih (pool.erase o)).trans (List.erase_sublist o pool)

theorem foldl_erase_not_mem {a : Nat} :
    ∀ (obs pool : List Nat), pool.Nodup → a ∈ obs →
      a ∉ obs.foldl (fun l p => l.erase p) pool := by
  intro obs
  induction obs with
  | nil => intro pool _ h; cases h
  | cons o rest ih =>
    intro pool hnd hmem
    simp only [List.foldl_cons]
    rcases List.mem_cons.mp hmem with rfl | hmem'
    · intro hin
      have hsub := (foldl_erase_sublist rest (pool.erase a)).subset hin
      exact ((hnd.mem_erase_iff).mp hsub).1 rfl
    · exact ih (pool.erase o) ((List.erase_sublist o pool).nodup hnd) hmem'

theorem foldl_erase_mem_of {a : Nat} :
    ∀ (obs pool : List Nat), a ∈ pool → a ∉ obs →
      a ∈ obs.foldl (fun l p => l.erase p) pool := by
  intro obs
  induction obs with
  | nil => intro pool h _; exact h
  | cons o rest ih =>
    intro pool hp hno
    simp only [List.foldl_cons]
    have hne : a ≠ o := fun h => hno (h ▸ List.mem_cons_self a rest)
    exact ih _ ((List.mem_erase_of_ne hne).mpr hp)
      (fun h => hno (List.mem_cons_of_mem _ h))

theorem mem_remainingPorts {obs : List Nat} {p : Nat} :
    p ∈ remainingPorts obs ↔ p ∈ initialPorts ∧ p ∉ obs := by
  constructor
  · intro h
    refine ⟨(foldl_erase_sublist obs initialPorts).subset h, fun hmem => ?_⟩
    exact foldl_erase_not_mem obs initialPorts initialPorts_nodup hmem h
  · rintro ⟨h1, h2⟩
    exact foldl_erase_mem_of obs initialPorts h1 h2

/-! ## Claim C1 -/

/-- C1 counterexample: 65535 is an odd port number in [1,65535], but it is not
in the initial candidate pool (`range(1, 65535, 2)` excludes the stop value),
so the pool does not start as all odd ports of [1,65535]. -/
theorem find_unused_port_pool_counterexample :
    65535 % 2 = 1 ∧ 1 ≤ 65535 ∧ 65535 ≤ 65535 ∧ 65535 ∉ initialPorts := by
  refine ⟨by norm_num, by norm_num, le_refl _, fun h => ?_⟩
  have := mem_initialPorts.mp h
  omega

/-- C1 (amended): the candidate pool of `find_unused_port` starts as all odd
port numbers in [1,65534] (equivalently, the odd ports of [1,65535) -- 65535
itself is excluded); every observed destination port is removed from the pool;
and any port drawn from the remaining pool is odd, lies in [1,65535], and
differs from every observed port -- in particular from 101 and 205 when those
were observed. -/
theorem find_unused_port_pool_spec (observed : List Nat) (p : Nat) :
    (p ∈ initialPorts ↔ p % 2 = 1 ∧ 1 ≤ p ∧ p ≤ 65533) ∧
    (p ∈ remainingPorts observed ↔ p ∈ initialPorts ∧ p ∉ observed) ∧
    (p ∈ remainingPorts [101, 205] →
      p % 2 = 1 ∧ 1 ≤ p ∧ p ≤ 65535 ∧ p ≠ 101 ∧ p ≠ 205) := by
  refine ⟨mem_initialPorts, mem_remainingPorts, fun h => ?_⟩
  obtain ⟨hin, hout⟩ := mem_remainingPorts.mp h
  obtain ⟨h1, h2, h3⟩ := mem_initialPorts.mp hin
  refine ⟨h1, h2, by omega, ?_, ?_⟩ <;>
    · rintro rfl
      simp at hout

/-- C1 witness: the port 103 lies in the pool remaining after observing 101
and 205, and the theorem yields its guarantees at that concrete input. -/
theorem find_unused_port_pool_spec_witness :
    103 % 2 = 1 ∧ 1 ≤ 103 ∧ 103 ≤ 65535 ∧ 103 ≠ 101 ∧ 103 ≠ 205 := by
  have h := find_unused_port_pool_spec [101, 205] 103
  exact h.2.2 (h.2.1.mpr ⟨h.1.mpr (by norm_num), by norm_num⟩)

/-! ## Claim C9 -/

/-- C9: calling `configure_corosync` with a truthy ring1 address but a falsy
ring1 netmask leaves `ring1_subnet` unassigned, and both subsequent branches
read it, so the call raises `UnboundLocalError` before any ring1 interface is
produced. -/
theorem configure_corosync_partial_override
    (ring1_iface ring1_ipaddr ring1_netmask mcast_port : Option String)
    (auto_ipaddr auto_subnet : String) (netmaskPrefixOf : String → String)
    (hip : pyTruthy ring1_ipaddr = true) (hnm : pyTruthy ring1_netmask = false) :
    configure_corosync_ring1_selection ring1_iface ring1_ipaddr ring1_netmask
      mcast_port auto_ipaddr auto_subnet netmaskPrefixOf =
      CorosyncPlanOutcome.unboundLocalError := by
  unfold configure_corosync_ring1_selection
  simp [hip, hnm]

/-- C9 witness: concrete partially-specified override (address given, netmask
absent). -/
theorem configure_corosync_partial_override_witness :
    configure_corosync_ring1_selection (some "eth1") (some "10.0.0.10") none
      (some "4400") "a" "s" id = CorosyncPlanOutcome.unboundLocalError :=
  configure_corosync_partial_override (some "eth1") (some "10.0.0.10") none
    (some "4400") "a" "s" id (by decide) (by decide)

/-! ## Claim C8 -/

/-- C8 counterexample: with ring0 on a /8 network (prefix length 8 < 9), the
auto-detect bootstrap path derives a ring1 configuration via
`generate_ring1_network_config` without raising any error, so not every
bootstrap run with a too-large ring0 network fails. -/
theorem ring1_guard_counterexample :
    (⟨ipv4 10 1 2 3, 8⟩ : Ring0Info).ipv4_prefixlen < 9 ∧
    generate_ring1_network_config ⟨ipv4 10 1 2 3, 8⟩ = (ipv4 10 129 2 3, 8) := by
  constructor
  · decide
  · decide

/-- C8 (amended): the "/9 or smaller" guard on ring0's network is enforced
only by the manual-override constructor `CorosyncRingInterface.ring1` (which
raises when `ring0.ipv4_prefixlen < 9` and otherwise builds the interface);
the auto-detect path `generate_ring1_network_config` performs no such check
and always derives a ring1 address/prefix pair. -/
theorem ring1_prefixlen_guard (r : Ring0Info) (device ipaddr prefixLenArg : String)
    (mcast_port : Nat) :
    (r.ipv4_prefixlen < 9 →
      corosync_ring1 r.ipv4_prefixlen device ipaddr prefixLenArg mcast_port =
        Except.error "Network cannot be bigger than /9") ∧
    (9 ≤ r.ipv4_prefixlen →
      corosync_ring1 r.ipv4_prefixlen device ipaddr prefixLenArg mcast_port =
        Except.ok ⟨device, ipaddr, prefixLenArg, mcast_port, 1⟩) ∧
    generate_ring1_network_config r =
      ((ring0_hostmask r &&& r.ipv4_address) |||
        (find_subnet (ring0_network r) r.ipv4_prefixlen).value, r.ipv4_prefixlen) := by
  refine ⟨fun h => ?_, fun h => ?_, ?_⟩
  · unfold corosync_ring1
    rw [if_pos h]
  · unfold corosync_ring1
    rw [if_neg (by omega)]
  · unfold generate_ring1_network_config
    have : (find_subnet (ring0_network r) r.ipv4_prefixlen).prefixlen =
        r.ipv4_prefixlen := by
      unfold find_subnet
      split
      · split <;> rfl
      · rfl
    rw [this]

/-- C8 witness: the guard at concrete prefix lengths 8 (rejected on the
manual path) and 24 (accepted). -/
theorem ring1_prefixlen_guard_witness :
    corosync_ring1 (⟨ipv4 10 1 2 3, 8⟩ : Ring0Info).ipv4_prefixlen "eth1" "10.128.1.2"
      "8" 4400 = Except.error "Network cannot be bigger than /9" ∧
    corosync_ring1 (⟨ipv4 10 0 1 5, 24⟩ : Ring0Info).ipv4_prefixlen "eth1" "10.128.1.2"
      "24" 4400 = Except.ok ⟨"eth1", "10.128.1.2", "24", 4400, 1⟩ :=
  ⟨(ring1_prefixlen_guard ⟨ipv4 10 1 2 3, 8⟩ "eth1" "10.128.1.2" "8" 4400).1
      (by norm_num),
   (ring1_prefixlen_guard ⟨ipv4 10 0 1 5, 24⟩ "eth1" "10.128.1.2" "24" 4400).2.1
      (by norm_num)⟩

/-! ## Claim C4 -/

/-- C4 counterexample: replacing an existing config file is not atomic for an
external reader: with prior content "a" and new content "b", the target path
passes through the observable states "absent" and "empty", neither of which is
the old or the new content. -/
theorem render_config_file_counterexample :
    (render_config_file ⟨some "a", none⟩ "b" none).raised = none ∧
    (render_config_file ⟨some "a", none⟩ "b" none).fs = ⟨some "b", some "a"⟩ ∧
    none ∈ (render_config_file ⟨some "a", none⟩ "b" none).targetStates ∧
    some "" ∈ (render_config_file ⟨some "a", none⟩ "b" none).targetStates ∧
    (some "" : Option String) ≠ some "a" ∧ (some "" : Option String) ≠ some "b" ∧
    (none : Option String) ≠ some "a" ∧ (none : Option String) ≠ some "b" := by
  refine ⟨rfl, rfl, ?_, ?_, by decide, by decide, by decide, by decide⟩ <;> decide

/-- C4 (amended): `_render_config_file` writes the rendered content to a fresh
temporary file, moves any existing target aside to the `.old` path (ignoring a
file-does-not-exist error, re-raising any other filesystem failure), then
copies the temporary file into place, ending with the target holding the new
content -- but the replacement is not atomic: when the target previously
existed, an external reader can observe the target absent and then empty
before the new content appears. -/
theorem render_config_file_spec (fs0 : FsState) (config : String) :
    (∀ c, fs0.target = some c →
      render_config_file fs0 config none =
        ⟨none, ⟨some config, some c⟩, [some c, none, some "", some config]⟩) ∧
    (fs0.target = none →
      render_config_file fs0 config none =
        ⟨none, ⟨some config, fs0.old⟩, [none, none, some "", some config]⟩) ∧
    (∀ e, e ≠ ENOENT →
      render_config_file fs0 config (some e) =
        ⟨some e, fs0, [fs0.target, fs0.target]⟩) ∧
    (render_config_file fs0 config (some ENOENT) =
      ⟨none, ⟨some config, fs0.old⟩,
        [fs0.target, fs0.target, some "", some config]⟩) ∧
    (∀ c, fs0.target = some c →
      none ∈ (render_config_file fs0 config none).targetStates ∧
      some "" ∈ (render_config_file fs0 config none).targetStates) := by
  refine ⟨fun c hc => ?_, fun hc => ?_, fun e he => ?_, ?_, fun c hc => ?_⟩
  · simp [render_config_file, hc]
  · simp [render_config_file, hc]
  · simp [render_config_file, he]
  · simp [render_config_file]
  · simp [render_config_file, hc]

/-- C4 witness: the amended description at a concrete filesystem state. -/
theorem render_config_file_spec_witness :
    render_config_file ⟨some "old", some "older"⟩ "new" none =
      ⟨none, ⟨some "new", some "old"⟩, [some "old", none, some "", some "new"]⟩ ∧
    render_config_file ⟨some "old", none⟩ "new" (some 13) =
      ⟨some 13, ⟨some "old", none⟩, [some "old", some "old"]⟩ :=
  ⟨(render_config_file_spec ⟨some "old", some "older"⟩ "new").1 "old" rfl,
   (render_config_file_spec ⟨some "old", none⟩ "new").2.2.1 13 (by decide)⟩

/-! ## Lemmas: the cibadmin retry loop -/

theorem cibadminLoop_not_busy {rc : Nat} (h : rc ≠ 10)
    (runs : Nat → Nat × String × String) (n calls sleeps : Nat) (out err : String) :
    cibadminLoop runs rc n calls sleeps out err = ⟨rc, calls, sleeps, out, err⟩ := by
  cases n with
  | zero => rfl
  | succ m => simp [cibadminLoop, h]

theorem cibadminLoop_succ_busy (runs : Nat → Nat × String × String)
    (n calls sleeps : Nat) (out err : String) (hbusy : (runs calls).1 = 10) :
    cibadminLoop runs 10 (n + 1) calls sleeps out err =
      cibadminLoop runs 10 n (calls + 1) (sleeps + 1)
        (runs calls).2.1 (runs calls).2.2 := by
  rcases hr : runs calls with ⟨rc2, out2, err2⟩
  rw [hr] at hbusy
  simp only at hbusy
  subst hbusy
  simp [cibadminLoop, hr]

theorem cibadminLoop_succ_success (runs : Nat → Nat × String × String)
    (n calls sleeps : Nat) (out err : String) (h0 : (runs calls).1 = 0) :
    cibadminLoop runs 10 (n + 1) calls sleeps out err =
      ⟨0, calls + 1, sleeps, (runs calls).2.1, (runs calls).2.2⟩ := by
  rcases hr : runs calls with ⟨rc2, out2, err2⟩
  rw [hr] at h0
  simp only at h0
  subst h0
  simp [cibadminLoop, hr]

theorem cibadminLoop_succ_fatal (runs : Nat → Nat × String × String)
    (n calls sleeps : Nat) (out err : String)
    (h0 : (runs calls).1 ≠ 0) (h10 : (runs calls).1 ≠ 10) :
    cibadminLoop runs 10 (n + 1) calls sleeps out err =
      ⟨(runs calls).1, calls + 1, sleeps + 1, (runs calls).2.1, (runs calls).2.2⟩ := by
  rcases hr : runs calls with ⟨rc2, out2, err2⟩
  rw [hr] at h0 h10
  simp only at h0 h10
  simp [cibadminLoop, hr, h0, cibadminLoop_not_busy h10]

theorem cibadminLoop_busy_prefix (runs : Nat → Nat × String × String) :
    ∀ (k n calls sleeps : Nat) (out err : String), k ≤ n → 0 < k →
      (∀ i, i < k → (runs (calls + i)).1 = 10) →
      cibadminLoop runs 10 n calls sleeps out err =
        cibadminLoop runs 10 (n - k) (calls + k) (sleeps + k)
          (runs (calls + (k - 1))).2.1 (runs (calls + (k - 1))).2.2 := by
  intro k
  induction k with
  | zero => intro n calls sleeps out err _ h0; omega
  | succ k ih =>
    intro n calls sleeps out err hkn _ hbusy
    cases n with
    | zero => omega
    | succ m =>
      have hstep := cibadminLoop_succ_busy runs m calls sleeps out err
        (by have := hbusy 0 (by omega); simpa using this)
      rw [hstep]
      rcases Nat.eq_zero_or_pos k with rfl | hk
      · simp
      · have := ih m (calls + 1) (sleeps + 1) (runs calls).2.1 (runs calls).2.2
          (by omega) hk (fun i hi => by
            have := hbusy (i + 1) (by omega)
            simpa [Nat.add_assoc, Nat.add_comm 1 i] using this)
        rw [this]
        have e1 : m - k = m + 1 - (k + 1) := by omega
        have e2 : calls + 1 + k = calls + (k + 1) := by omega
        have e3 : sleeps + 1 + k = sleeps + (k + 1) := by omega
        have e4 : calls + 1 + (k - 1) = calls + (k + 1 - 1) := by omega
        rw [e1, e2, e3, e4]

theorem cibadminLoop_calls_le (runs : Nat → Nat × String × String) :
    ∀ (n rc calls sleeps : Nat) (out err : String),
      (cibadminLoop runs rc n calls sleeps out err).calls ≤ calls + n := by
  intro n
  induction n with
  | zero => intro rc calls sleeps out err; simp [cibadminLoop]
  | succ m ih =>
    intro rc calls sleeps out err
    by_cases h : rc = 10
    · subst h
      rcases hr : runs calls with ⟨rc2, out2, err2⟩
      by_cases h2 : rc2 = 0
      · subst h2
        rw [cibadminLoop_succ_success runs m calls sleeps out err (by rw [hr])]
        simp
      · by_cases h10 : rc2 = 10
        · subst h10
          rw [cibadminLoop_succ_busy runs m calls sleeps out err (by rw [hr])]
          have := ih 10 (calls + 1) (sleeps + 1) (runs calls).2.1 (runs calls).2.2
          omega
        · rw [cibadminLoop_succ_fatal runs m calls sleeps out err
            (by rw [hr]; exact h2) (by rw [hr]; exact h10)]
          simp
    · rw [cibadminLoop_not_busy h]
      simp

/-! ## Claim C2 -/

/-- C2: the `cibadmin` wrapper re-invokes the configuration-store command
while the exit code equals the busy sentinel 10, sleeping one second between
attempts, for at most 100 total invocations; a first invocation with any other
nonzero exit code raises an error carrying the exit code and the captured
output; exhausting all 100 attempts on the busy sentinel raises; a successful
invocation returns the `(rc, stdout, stderr)` tuple.  In particular, busy on
attempts 1-3 and success on attempt 4 gives exactly 4 invocations and 3
one-second sleeps, and busy on all 100 attempts raises after exactly 100
invocations. -/
theorem cibadmin_spec (runs : Nat → Nat × String × String) :
    (cibadminRun runs).calls ≤ 100 ∧
    ((runs 0).1 = 0 →
      cibadmin runs = Except.ok (0, (runs 0).2.1, (runs 0).2.2) ∧
      (cibadminRun runs).calls = 1 ∧ (cibadminRun runs).sleeps = 0) ∧
    ((runs 0).1 ≠ 0 → (runs 0).1 ≠ 10 →
      cibadmin runs = Except.error ((runs 0).1, (runs 0).2.1, (runs 0).2.2) ∧
      (cibadminRun runs).calls = 1) ∧
    ((∀ i, i < 3 → (runs i).1 = 10) → (runs 3).1 = 0 →
      cibadmin runs = Except.ok (0, (runs 3).2.1, (runs 3).2.2) ∧
      (cibadminRun runs).calls = 4 ∧ (cibadminRun runs).sleeps = 3) ∧
    ((∀ i, i < 100 → (runs i).1 = 10) →
      cibadmin runs = Except.error (10, (runs 99).2.1, (runs 99).2.2) ∧
      (cibadminRun runs).calls = 100) := by
  refine ⟨?_, fun h0 => ?_, fun h0 h10 => ?_, fun hb h0 => ?_, fun hb => ?_⟩
  · have := cibadminLoop_calls_le runs 100 10 0 0 "" ""
    simpa [cibadminRun] using this
  · have hrun : cibadminRun runs = ⟨0, 1, 0, (runs 0).2.1, (runs 0).2.2⟩ := by
      unfold cibadminRun
      exact cibadminLoop_succ_success runs 99 0 0 "" "" h0
    refine ⟨?_, by rw [hrun], by rw [hrun]⟩
    unfold cibadmin
    rw [hrun]
    simp
  · have hrun : cibadminRun runs =
        ⟨(runs 0).1, 1, 1, (runs 0).2.1, (runs 0).2.2⟩ := by
      unfold cibadminRun
      exact cibadminLoop_succ_fatal runs 99 0 0 "" "" h0 h10
    refine ⟨?_, by rw [hrun]⟩
    unfold cibadmin
    rw [hrun]
    simp [h0]
  · have hpre := cibadminLoop_busy_prefix runs 3 100 0 0 "" ""
      (by omega) (by omega) (fun i hi => by simpa using hb i hi)
    have hrun : cibadminRun runs = ⟨0, 4, 3, (runs 3).2.1, (runs 3).2.2⟩ := by
      unfold cibadminRun
      rw [hpre]
      have := cibadminLoop_succ_success runs 96 3 3 (runs 2).2.1 (runs 2).2.2 h0
      simpa using this
    refine ⟨?_, by rw [hrun], by rw [hrun]⟩
    unfold cibadmin
    rw [hrun]
    simp
  · have hpre := cibadminLoop_busy_prefix runs 100 100 0 0 "" ""
      (by omega) (by omega) (fun i hi => by simpa using hb i hi)
    have hrun : cibadminRun runs = ⟨10, 100, 100, (runs 99).2.1, (runs 99).2.2⟩ := by
      unfold cibadminRun
      rw [hpre]
      rfl
    refine ⟨?_, by rw [hrun]⟩
    unfold cibadmin
    rw [hrun]
    simp

/-- C2 witness: a command busy on attempts 1-3 and successful on attempt 4
succeeds after 4 invocations and 3 sleeps; a command busy on every attempt
raises after exactly 100 invocations. -/
theorem cibadmin_spec_witness :
    (cibadmin (fun i => if i < 3 then (10, "b", "b") else (0, "ok", "err")) =
        Except.ok (0, "ok", "err") ∧
      (cibadminRun (fun i => if i < 3 then (10, "b", "b") else (0, "ok", "err"))).calls = 4 ∧
      (cibadminRun (fun i => if i < 3 then (10, "b", "b") else (0, "ok", "err"))).sleeps = 3) ∧
    (cibadmin (fun _ => (10, "x", "y")) = Except.error (10, "x", "y") ∧
      (cibadminRun (fun _ => (10, "x", "y"))).calls = 100) := by
  constructor
  · exact (cibadmin_spec (fun i => if i < 3 then (10, "b", "b") else (0, "ok", "err"))).2.2.2.1
      (by decide) (by norm_num)
  · exact (cibadmin_spec (fun _ => (10, "x", "y"))).2.2.2.2 (fun i _ => rfl)

/-! ## Lemmas: network arithmetic -/

theorem netSize_pos (n : IPNetwork4) : 0 < netSize n :=
  Nat.pos_pow_of_pos _ (by norm_num)

theorem netSize_dvd_netFirst (n : IPNetwork4) : netSize n ∣ netFirst n := by
  have h := Nat.div_add_mod n.value (netSize n)
  refine ⟨n.value / netSize n, ?_⟩
  unfold netFirst
  omega

theorem netFirst_le_value (n : IPNetwork4) : netFirst n ≤ n.value :=
  Nat.sub_le _ _

theorem value_lt_netFirst_add (n : IPNetwork4) :
    n.value < netFirst n + netSize n := by
  have := Nat.mod_lt n.value (netSize_pos n)
  unfold netFirst
  omega

theorem netFirst_eq_self_of_dvd {v p : Nat} (h : netSize ⟨v, p⟩ ∣ v) :
    netFirst ⟨v, p⟩ = v := by
  have h0 : v % netSize ⟨v, p⟩ = 0 := Nat.mod_eq_zero_of_dvd h
  show v - v % netSize ⟨v, p⟩ = v
  omega

theorem le_netFirst_of_dvd_le {c : Nat} (n : IPNetwork4)
    (hd : netSize n ∣ c) (hle : c ≤ n.value) : c ≤ netFirst n := by
  obtain ⟨k, hk⟩ := hd
  obtain ⟨j, hj⟩ := netSize_dvd_netFirst n
  have h2 := value_lt_netFirst_add n
  have h3 : netSize n * k < netSize n * (j + 1) := by
    have e : netSize n * (j + 1) = netSize n * j + netSize n := by ring
    omega
  have h4 : k < j + 1 := Nat.lt_of_mul_lt_mul_left h3
  calc c = netSize n * k := hk
    _ ≤ netSize n * j := Nat.mul_le_mul_left _ (by omega)
    _ = netFirst n := hj.symm

theorem dvd_add_le {s m n : Nat} (hm : s ∣ m) (hn : s ∣ n) (h : m < n) :
    m + s ≤ n := by
  obtain ⟨i, rfl⟩ := hm
  obtain ⟨j, rfl⟩ := hn
  have hs : 0 < s := by
    rcases Nat.eq_zero_or_pos s with rfl | hs
    · simp at h
    · exact hs
  have hij : i < j := Nat.lt_of_mul_lt_mul_left h
  have h2 : s * (i + 1) ≤ s * j := Nat.mul_le_mul_left _ (by omega)
  have e : s * (i + 1) = s * i + s := by ring
  omega

theorem netGeNet_ten8_iff (addr p : Nat) :
    netGeNet ⟨addr, p⟩ ⟨ipv4 10 0 0 0, 8⟩ = true ↔
      (167772160 < netFirst ⟨addr, p⟩ ∨
        (netFirst ⟨addr, p⟩ = 167772160 ∧ 8 ≤ p)) := by
  unfold netGeNet
  rw [show netSortKey ⟨ipv4 10 0 0 0, 8⟩ = (167772160, 7, 0) from by decide]
  unfold keyLt netSortKey
  simp only [Bool.not_eq_true', decide_eq_false_iff_not]
  omega

theorem netGeNet_ten128_iff (addr p : Nat) :
    netGeNet ⟨addr, p⟩ ⟨ipv4 10 128 0 0, 9⟩ = true ↔
      (176160768 < netFirst ⟨addr, p⟩ ∨
        (netFirst ⟨addr, p⟩ = 176160768 ∧ 9 ≤ p)) := by
  unfold netGeNet
  rw [show netSortKey ⟨ipv4 10 128 0 0, 9⟩ = (176160768, 8, 0) from by decide]
  unfold keyLt netSortKey
  simp only [Bool.not_eq_true', decide_eq_false_iff_not]
  omega

theorem netLtAddr_top_iff (addr p : Nat) :
    netLtAddr ⟨addr, p⟩ (ipv4 10 255 255 255) = true ↔
      (netFirst ⟨addr, p⟩ < 184549375 ∨
        (netFirst ⟨addr, p⟩ = 184549375 ∧ p < 33)) := by
  unfold netLtAddr
  rw [show ipv4 10 255 255 255 = 184549375 from rfl]
  simp only [decide_eq_true_eq]
  omega

theorem find_subnet_eq (addr p : Nat) :
    find_subnet addr p =
      if (167772160 < netFirst ⟨addr, p⟩ ∨
            (netFirst ⟨addr, p⟩ = 167772160 ∧ 8 ≤ p)) ∧
          (netFirst ⟨addr, p⟩ < 184549375 ∨
            (netFirst ⟨addr, p⟩ = 184549375 ∧ p < 33)) then
        if 176160768 < netFirst ⟨addr, p⟩ ∨
            (netFirst ⟨addr, p⟩ = 176160768 ∧ 9 ≤ p) then
          ⟨167772160, p⟩
        else ⟨176160768, p⟩
      else ⟨167772160, p⟩ := by
  unfold find_subnet
  by_cases h1 : 167772160 < netFirst ⟨addr, p⟩ ∨
      (netFirst ⟨addr, p⟩ = 167772160 ∧ 8 ≤ p) <;>
    by_cases h2 : netFirst ⟨addr, p⟩ < 184549375 ∨
        (netFirst ⟨addr, p⟩ = 184549375 ∧ p < 33) <;>
      by_cases h3 : 176160768 < netFirst ⟨addr, p⟩ ∨
          (netFirst ⟨addr, p⟩ = 176160768 ∧ 9 ≤ p) <;>
        simp only [Bool.and_eq_true, netGeNet_ten8_iff, netGeNet_ten128_iff,
          netLtAddr_top_iff] <;>
          simp [h1, h2, h3, ipv4]

/-! ## Claim C3 -/

/-- C3 counterexample: the network 10.0.0.0/8 is RFC1918-representable, yet
`find_subnet` maps it to 10.128.0.0/8, whose /8 address range is exactly
10.0.0.0/8 again -- the shadow overlaps the input at that prefix length. -/
theorem find_subnet_overlap_counterexample :
    inRFC1918 (ipv4 10 0 0 0) ∧
    find_subnet (ipv4 10 0 0 0) 8 = ⟨ipv4 10 128 0 0, 8⟩ ∧
    netOverlap ⟨ipv4 10 0 0 0, 8⟩ (find_subnet (ipv4 10 0 0 0) 8) := by
  refine ⟨by decide, by decide, by decide⟩

/-- C3 (amended): for every RFC1918 network address and every prefix length
in [9, 32], the shadow subnet returned by `find_subnet` does not overlap the
input network at that prefix length.  (For prefix lengths below 9 -- networks
larger than a /9 -- the counterexample shows the guarantee fails.) -/
theorem find_subnet_no_overlap (addr p : Nat) (hp9 : 9 ≤ p) (hp32 : p ≤ 32)
    (hrfc : inRFC1918 addr) : ¬ netOverlap ⟨addr, p⟩ (find_subnet addr p) := by
  intro hov
  rw [find_subnet_eq] at hov
  have hs_pos : 0 < netSize ⟨addr, p⟩ := netSize_pos _
  have hdvd23 : netSize ⟨addr, p⟩ ∣ 8388608 := by
    show (2 : Nat) ^ (32 - p) ∣ 8388608
    have h := Nat.pow_dvd_pow 2 (show 32 - p ≤ 23 by omega)
    norm_num at h
    exact h
  have hsle : netSize ⟨addr, p⟩ ≤ 8388608 := Nat.le_of_dvd (by norm_num) hdvd23
  have hdvd_f : netSize ⟨addr, p⟩ ∣ netFirst ⟨addr, p⟩ := netSize_dvd_netFirst _
  have hfle : netFirst ⟨addr, p⟩ ≤ addr := netFirst_le_value _
  have hlt : addr < netFirst ⟨addr, p⟩ + netSize ⟨addr, p⟩ :=
    value_lt_netFirst_add ⟨addr, p⟩
  have hdA : netSize ⟨addr, p⟩ ∣ 167772160 := hdvd23.trans ⟨20, by norm_num⟩
  have hdB : netSize ⟨addr, p⟩ ∣ 176160768 := hdvd23.trans ⟨21, by norm_num⟩
  have hA : netFirst ⟨(167772160 : Nat), p⟩ = 167772160 :=
    netFirst_eq_self_of_dvd hdA
  have hB : netFirst ⟨(176160768 : Nat), p⟩ = 176160768 :=
    netFirst_eq_self_of_dvd hdB
  have hszA : netSize ⟨(167772160 : Nat), p⟩ = netSize ⟨addr, p⟩ := rfl
  have hszB : netSize ⟨(176160768 : Nat), p⟩ = netSize ⟨addr, p⟩ := rfl
  unfold inRFC1918 ipv4 at hrfc
  split_ifs at hov with hc1 hc2
  · -- shadow 10.0.0.0/p, input in (or at) the upper half
    unfold netOverlap netLast at hov
    rw [hA, hszA] at hov
    omega
  · -- shadow 10.128.0.0/p, input strictly below the upper half
    unfold netOverlap netLast at hov
    rw [hB, hszB] at hov
    have hflt : netFirst ⟨addr, p⟩ < 176160768 := by omega
    have hstep := dvd_add_le hdvd_f hdB hflt
    omega
  · -- outer condition false: input outside 10.0.0.0/8
    unfold netOverlap netLast at hov
    rw [hA, hszA] at hov
    rcases hrfc with h10 | h172 | h192
    · have hge : 167772160 ≤ netFirst ⟨addr, p⟩ :=
        le_netFirst_of_dvd_le ⟨addr, p⟩ hdA (show (167772160 : Nat) ≤ addr by omega)
      exact hc1 ⟨by omega, by omega⟩
    · omega
    · omega

/-- C3 witness: no overlap at the concrete RFC1918 input 192.168.1.0/24. -/
theorem find_subnet_no_overlap_witness :
    ¬ netOverlap ⟨ipv4 192 168 1 0, 24⟩ (find_subnet (ipv4 192 168 1 0) 24) :=
  find_subnet_no_overlap (ipv4 192 168 1 0) 24 (by norm_num) (by norm_num)
    (by decide)

/-! ## Claim C6 -/

theorem deriveRing1SubnetPolicy_eq (addr p : Nat) :
    deriveRing1SubnetPolicy addr p =
      if 167772160 ≤ netFirst ⟨addr, p⟩ ∧
          netFirst ⟨addr, p⟩ + (netSize ⟨addr, p⟩ - 1) ≤ 184549375 then
        if 176160768 ≤ netFirst ⟨addr, p⟩ then ⟨167772160, p⟩
        else ⟨176160768, p⟩
      else ⟨167772160, p⟩ := by
  unfold deriveRing1SubnetPolicy netLast
  norm_num [ipv4]

/-- C6: `find_subnet` follows the stated shadow policy -- for an input network
inside 10.0.0.0/8 it picks the opposite half (10.0.0.0/prefixlen when the
input's network address is at or above 10.128.0.0, else 10.128.0.0/prefixlen),
and for an input disjoint from 10.0.0.0/8 it picks 10.0.0.0/prefixlen -- and
satisfies all five of the spec's examples. -/
theorem find_subnet_follows_policy :
    (∀ addr p, p ≤ 32 → insideTen8 addr p ∨ disjointTen8 addr p →
      find_subnet addr p = deriveRing1SubnetPolicy addr p) ∧
    find_subnet (ipv4 192 168 1 0) 24 = ⟨ipv4 10 0 0 0, 24⟩ ∧
    find_subnet (ipv4 10 0 1 0) 24 = ⟨ipv4 10 128 0 0, 24⟩ ∧
    find_subnet (ipv4 10 128 0 0) 9 = ⟨ipv4 10 0 0 0, 9⟩ ∧
    find_subnet (ipv4 10 127 255 254) 9 = ⟨ipv4 10 128 0 0, 9⟩ ∧
    find_subnet (ipv4 10 255 255 255) 32 = ⟨ipv4 10 0 0 0, 32⟩ := by
  refine ⟨?_, by decide, by decide, by decide, by decide, by decide⟩
  intro addr p hp32 h
  rw [find_subnet_eq, deriveRing1SubnetPolicy_eq]
  unfold insideTen8 disjointTen8 netLast at h
  rw [show ipv4 10 0 0 0 = 167772160 from rfl,
      show ipv4 10 255 255 255 = 184549375 from rfl] at h
  have hs_pos : 0 < netSize ⟨addr, p⟩ := netSize_pos _
  have hdvd_f : netSize ⟨addr, p⟩ ∣ netFirst ⟨addr, p⟩ := netSize_dvd_netFirst _
  rcases h with hin | hdis
  · have hsle : netSize ⟨addr, p⟩ ≤ 16777216 := by omega
    have h2 : 32 - p ≤ 24 := by
      by_contra hcon
      push_neg at hcon
      have hpow : (2 : Nat) ^ 25 ≤ 2 ^ (32 - p) :=
        Nat.pow_le_pow_right (by norm_num) (by omega)
      have e : netSize ⟨addr, p⟩ = 2 ^ (32 - p) := rfl
      norm_num at hpow
      omega
    have hp8 : 8 ≤ p := by omega
    have hc1 : 167772160 < netFirst ⟨addr, p⟩ ∨
        (netFirst ⟨addr, p⟩ = 167772160 ∧ 8 ≤ p) := by omega
    have hc2 : netFirst ⟨addr, p⟩ < 184549375 ∨
        (netFirst ⟨addr, p⟩ = 184549375 ∧ p < 33) := by omega
    rw [if_pos ⟨hc1, hc2⟩, if_pos hin]
    by_cases hup : 176160768 ≤ netFirst ⟨addr, p⟩
    · have hinner : 176160768 < netFirst ⟨addr, p⟩ ∨
          (netFirst ⟨addr, p⟩ = 176160768 ∧ 9 ≤ p) := by
        rcases Nat.lt_or_ge 176160768 (netFirst ⟨addr, p⟩) with hx | hx
        · exact Or.inl hx
        · right
          have hfe : netFirst ⟨addr, p⟩ = 176160768 := by omega
          refine ⟨hfe, ?_⟩
          by_contra hcon
          push_neg at hcon
          have h24 : (16777216 : Nat) ∣ netSize ⟨addr, p⟩ := by
            show (2 : Nat) ^ 24 ∣ 2 ^ (32 - p)
            exact Nat.pow_dvd_pow 2 (by omega)
          have h24f : (16777216 : Nat) ∣ netFirst ⟨addr, p⟩ := h24.trans hdvd_f
          rw [hfe] at h24f
          norm_num at h24f
      rw [if_pos hinner, if_pos hup]
    · have hinner : ¬(176160768 < netFirst ⟨addr, p⟩ ∨
          (netFirst ⟨addr, p⟩ = 176160768 ∧ 9 ≤ p)) := by omega
      rw [if_neg hinner, if_neg hup]
  · have hno : ¬((167772160 < netFirst ⟨addr, p⟩ ∨
        (netFirst ⟨addr, p⟩ = 167772160 ∧ 8 ≤ p)) ∧
        (netFirst ⟨addr, p⟩ < 184549375 ∨
          (netFirst ⟨addr, p⟩ = 184549375 ∧ p < 33))) := by omega
    have hpol : ¬(167772160 ≤ netFirst ⟨addr, p⟩ ∧
        netFirst ⟨addr, p⟩ + (netSize ⟨addr, p⟩ - 1) ≤ 184549375) := by omega
    rw [if_neg hno, if_neg hpol]

/-- C6 witness: the policy equality at the concrete inside-10/8 input
10.0.1.0/24 and the concrete outside input 192.168.1.0/24. -/
theorem find_subnet_follows_policy_witness :
    find_subnet (ipv4 10 0 1 0) 24 = deriveRing1SubnetPolicy (ipv4 10 0 1 0) 24 ∧
    find_subnet (ipv4 192 168 1 0) 24 =
      deriveRing1SubnetPolicy (ipv4 192 168 1 0) 24 ∧
    find_subnet (ipv4 10 255 255 255) 32 = ⟨ipv4 10 0 0 0, 32⟩ :=
  ⟨find_subnet_follows_policy.1 (ipv4 10 0 1 0) 24 (by norm_num)
      (Or.inl (by decide)),
   find_subnet_follows_policy.1 (ipv4 192 168 1 0) 24 (by norm_num)
      (Or.inr (by decide)),
   find_subnet_follows_policy.2.2.2.2.2⟩

/-! ## Lemmas: Python string splitting -/

theorem pySplit_ne_nil (sep : Char) (l : List Char) : pySplit sep l ≠ [] := by
  cases l with
  | nil => simp [pySplit]
  | cons c rest =>
    simp only [pySplit]
    cases h : pySplit sep rest with
    | nil => simp
    | cons t ts => by_cases hcs : c = sep <;> simp [hcs]

theorem pySplit_no_sep {sep : Char} : ∀ {l : List Char}, sep ∉ l →
    pySplit sep l = [l] := by
  intro l
  induction l with
  | nil => intro _; rfl
  | cons c rest ih =>
    intro h
    have hc : ¬(c = sep) := by rintro rfl; exact h (List.mem_cons_self _ _)
    have h' : sep ∉ rest := fun hm => h (List.mem_cons_of_mem _ hm)
    simp only [pySplit, ih h']
    simp [hc]

theorem pySplit_append {sep : Char} : ∀ {a : List Char} (b : List Char), sep ∉ a →
    pySplit sep (a ++ sep :: b) = a :: pySplit sep b := by
  intro a
  induction a with
  | nil =>
    intro b _
    show pySplit sep (sep :: b) = [] :: pySplit sep b
    cases h : pySplit sep b with
    | nil => exact absurd h (pySplit_ne_nil sep b)
    | cons t ts => simp [pySplit, h]
  | cons c a' ih =>
    intro b h
    have hc : ¬(c = sep) := by rintro rfl; exact h (List.mem_cons_self _ _)
    have h' : sep ∉ a' := fun hm => h (List.mem_cons_of_mem _ hm)
    show pySplit sep (c :: (a' ++ sep :: b)) = (c :: a') :: pySplit sep b
    simp only [pySplit, ih b h']
    simp [hc]

theorem joinWith_singleton (sep : Char) (l : List Char) : joinWith sep [l] = l := rfl

theorem joinWith_cons_cons (sep : Char) (l l2 : List Char) (ls : List (List Char)) :
    joinWith sep (l :: l2 :: ls) = l ++ sep :: joinWith sep (l2 :: ls) := rfl

theorem joinWith_split {sep : Char} : ∀ {ls : List (List Char)}, ls ≠ [] →
    (∀ l ∈ ls, sep ∉ l) → pySplit sep (joinWith sep ls) = ls := by
  intro ls
  induction ls with
  | nil => intro h; exact absurd rfl h
  | cons l rest ih =>
    intro _ hall
    cases rest with
    | nil =>
      rw [joinWith_singleton]
      exact pySplit_no_sep (hall l (List.mem_cons_self _ _))
    | cons l2 rest' =>
      rw [joinWith_cons_cons,
        pySplit_append (joinWith sep (l2 :: rest')) (hall l (List.mem_cons_self _ _)),
        ih (by simp) (fun x hx => hall x (List.mem_cons_of_mem _ hx))]

theorem okField_space_not_mem {f : List Char} (h : okField f) : ' ' ∉ f :=
  fun hm => (h ' ' hm) (by decide)

theorem okField_newline_not_mem {f : List Char} (h : okField f) : '\n' ∉ f :=
  fun hm => (h '\n' hm) (by decide)

theorem pySplit_renderNodeLine {t : List Char × List Char × List Char}
    (h1 : ' ' ∉ t.1) (h2 : ' ' ∉ t.2.1) (h3 : ' ' ∉ t.2.2) :
    pySplit ' ' (renderNodeLine t) = [t.1, t.2.1, t.2.2] := by
  unfold renderNodeLine
  rw [pySplit_append (t.2.1 ++ (' ' :: t.2.2)) h1, pySplit_append t.2.2 h2,
    pySplit_no_sep h3]

theorem newline_not_mem_renderNodeLine {t : List Char × List Char × List Char}
    (h1 : okField t.1) (h2 : okField t.2.1) (h3 : okField t.2.2) :
    '\n' ∉ renderNodeLine t := by
  unfold renderNodeLine
  intro hm
  simp only [List.mem_append, List.mem_cons] at hm
  rcases hm with hm | hm | hm | hm | hm
  · exact okField_newline_not_mem h1 hm
  · exact absurd hm (by decide)
  · exact okField_newline_not_mem h2 hm
  · exact absurd hm (by decide)
  · exact okField_newline_not_mem h3 hm

theorem renderNodeLine_ne_nil (t : List Char × List Char × List Char) :
    renderNodeLine t ≠ [] := by
  unfold renderNodeLine
  simp

theorem getLast?_cons_of_ne_nil {α : Type} {a : α} {l : List α} (h : l ≠ []) :
    (a :: l).getLast? = l.getLast? := by
  cases l with
  | nil => exact absurd rfl h
  | cons b m => exact List.getLast?_cons_cons

theorem renderNodeLine_getLast? {t : List Char × List Char × List Char}
    (h3 : t.2.2 ≠ []) : (renderNodeLine t).getLast? = t.2.2.getLast? := by
  unfold renderNodeLine
  have hx : t.2.1 ++ (' ' :: t.2.2) ≠ [] := by simp
  rw [List.getLast?_append, getLast?_cons_of_ne_nil hx, List.getLast?_append,
    getLast?_cons_of_ne_nil h3]
  cases hcc : t.2.2.getLast? with
  | none => exact absurd (List.getLast?_eq_none_iff.mp hcc) h3
  | some c => simp

theorem joinWith_getLast? {sep : Char} : ∀ (ls : List (List Char)) (lst : List Char),
    ls.getLast? = some lst → lst ≠ [] →
    (joinWith sep ls).getLast? = lst.getLast? := by
  intro ls
  induction ls with
  | nil => intro lst h; simp at h
  | cons l rest ih =>
    intro lst h hne
    cases rest with
    | nil =>
      simp only [List.getLast?_singleton, Option.some.injEq] at h
      rw [joinWith_singleton, h]
    | cons l2 rest' =>
      rw [List.getLast?_cons_cons] at h
      have hrec := ih lst h hne
      have hjne : joinWith sep (l2 :: rest') ≠ [] := by
        intro h0
        rw [h0] at hrec
        exact hne (List.getLast?_eq_none_iff.mp hrec.symm)
      rw [joinWith_cons_cons, List.getLast?_append,
        getLast?_cons_of_ne_nil hjne, hrec]
      cases hcc : lst.getLast? with
      | none => exact absurd (List.getLast?_eq_none_iff.mp hcc) hne
      | some c => simp

theorem pyRstrip_eq_self {l : List Char}
    (h : ∀ c, l.getLast? = some c → c ∉ pySpaceChars) : pyRstrip l = l := by
  unfold pyRstrip
  cases hl : l.reverse with
  | nil =>
    have hnil : l = [] := by simpa using congrArg List.reverse hl
    simp [hnil]
  | cons c rest =>
    have hc : l.getLast? = some c := by
      rw [List.getLast?_eq_head?_reverse, hl]
      rfl
    have hns := h c hc
    rw [List.dropWhile_cons]
    simp only [hns, decide_False, Bool.false_eq_true, if_false]
    first
    | rw [List.reverse_reverse]
    | rw [← hl, List.reverse_reverse]

theorem countMemberLost_render :
    ∀ ts : List (List Char × List Char × List Char),
      (∀ t ∈ ts, okField t.1 ∧ okField t.2.1 ∧ okField t.2.2) →
      countMemberLost (ts.map renderNodeLine) =
        some (ts.countP fun t =>
          decide (t.2.2 = "member".toList ∨ t.2.2 = "lost".toList)) := by
  intro ts
  induction ts with
  | nil => intro _; rfl
  | cons t rest ih =>
    intro hok
    obtain ⟨o1, o2, o3⟩ := hok t (List.mem_cons_self _ _)
    have e := pySplit_renderNodeLine (okField_space_not_mem o1)
      (okField_space_not_mem o2) (okField_space_not_mem o3)
    simp only [List.map_cons, countMemberLost, e,
      ih (fun x hx => hok x (List.mem_cons_of_mem _ hx))]
    simp [List.countP_cons, Nat.add_comm]

/-! ## Claim C7 -/

/-- C7: `get_cluster_size` parses every line of the node-registry output as
`<id> <name> <status>` and counts exactly the entries whose status is "member"
or "lost", excluding every other status; in particular, with the rows
"1 node-a member", "2 node-b lost", "3 node-c offline" it returns 2. -/
theorem get_cluster_size_spec :
    (∀ ts : List (List Char × List Char × List Char), ts ≠ [] →
      (∀ t ∈ ts, okField t.1 ∧ okField t.2.1 ∧ okField t.2.2 ∧ t.2.2 ≠ []) →
      get_cluster_size (joinWith '\n' (ts.map renderNodeLine)) =
        some (ts.countP fun t =>
          decide (t.2.2 = "member".toList ∨ t.2.2 = "lost".toList))) ∧
    get_cluster_size ("1 node-a member\n2 node-b lost\n3 node-c offline").toList =
      some 2 := by
  constructor
  · intro ts hne hok
    unfold get_cluster_size
    obtain ⟨tl, htl⟩ : ∃ tl, ts.getLast? = some tl := by
      cases hcc : ts.getLast? with
      | none => exact absurd (List.getLast?_eq_none_iff.mp hcc) hne
      | some tl => exact ⟨tl, rfl⟩
    obtain ⟨ok1, ok2, ok3, hne3⟩ := hok tl (List.mem_of_getLast?_eq_some htl)
    have hmap_last : (ts.map renderNodeLine).getLast? =
        some (renderNodeLine tl) := by
      rw [List.getLast?_map, htl]
      rfl
    have hjoin_last := @joinWith_getLast? '\n' (ts.map renderNodeLine)
      (renderNodeLine tl) hmap_last (renderNodeLine_ne_nil tl)
    have hrstrip : pyRstrip (joinWith '\n' (ts.map renderNodeLine)) =
        joinWith '\n' (ts.map renderNodeLine) := by
      apply pyRstrip_eq_self
      intro c hc
      rw [hjoin_last, renderNodeLine_getLast? hne3] at hc
      exact ok3 c (List.mem_of_getLast?_eq_some hc)
    rw [hrstrip,
      joinWith_split (by simpa using hne)
        (fun l hl => by
          obtain ⟨t, ht, rfl⟩ := List.mem_map.mp hl
          exact newline_not_mem_renderNodeLine (hok t ht).1 (hok t ht).2.1
            (hok t ht).2.2.1),
      countMemberLost_render ts
        (fun t ht => ⟨(hok t ht).1, (hok t ht).2.1, (hok t ht).2.2.1⟩)]
  · decide

/-- C7 witness: the general counting law applied to the concrete three-row
registry, agreeing with the concrete evaluation. -/
theorem get_cluster_size_spec_witness :
    get_cluster_size
        (joinWith '\n'
          (([("1".toList, "node-a".toList, "member".toList),
             ("2".toList, "node-b".toList, "lost".toList),
             ("3".toList, "node-c".toList, "offline".toList)]).map
            renderNodeLine)) = some 2 := by
  have h := get_cluster_size_spec.1
    [("1".toList, "node-a".toList, "member".toList),
     ("2".toList, "node-b".toList, "lost".toList),
     ("3".toList, "node-c".toList, "offline".toList)]
    (by simp) (by decide)
  rw [h]
  decide

/-! ## Claim C10 -/

theorem deleteNodeLoop_no_match (nodename : List Char) :
    ∀ (ts : List (List Char × List Char × List Char)) (tlast :
      List Char × List Char × List Char) (acc : Option (List Char)),
      (∀ t ∈ ts ++ [tlast], okField t.1 ∧ okField t.2.1 ∧ okField t.2.2) →
      (∀ t ∈ ts ++ [tlast], t.2.1 ≠ nodename) →
      deleteNodeLoop nodename ((ts ++ [tlast]).map renderNodeLine) acc =
        Except.ok (some tlast.1) := by
  intro ts
  induction ts with
  | nil =>
    intro tlast acc hok hnm
    obtain ⟨o1, o2, o3⟩ := hok tlast (by simp)
    have e := pySplit_renderNodeLine (okField_space_not_mem o1)
      (okField_space_not_mem o2) (okField_space_not_mem o3)
    have hnm' := hnm tlast (by simp)
    simp only [List.nil_append, List.map_cons, List.map_nil, deleteNodeLoop, e]
    simp [hnm']
  | cons t ts' ih =>
    intro tlast acc hok hnm
    obtain ⟨o1, o2, o3⟩ := hok t (by simp)
    have e := pySplit_renderNodeLine (okField_space_not_mem o1)
      (okField_space_not_mem o2) (okField_space_not_mem o3)
    have hnmt := hnm t (by simp)
    simp only [List.cons_append, List.map_cons, deleteNodeLoop, e]
    rw [if_neg hnmt]
    exact ih tlast (some t.1)
      (fun u hu => hok u (by simp only [List.cons_append, List.mem_cons]; exact Or.inr hu))
      (fun u hu => hnm u (by simp only [List.cons_append, List.mem_cons]; exact Or.inr hu))

theorem deleteNodeLoop_match (nodename : List Char) :
    ∀ (pre : List (List Char × List Char × List Char))
      (t : List Char × List Char × List Char)
      (post : List (List Char × List Char × List Char)) (acc : Option (List Char)),
      (∀ u ∈ pre ++ t :: post, okField u.1 ∧ okField u.2.1 ∧ okField u.2.2) →
      (∀ u ∈ pre, u.2.1 ≠ nodename) → t.2.1 = nodename →
      deleteNodeLoop nodename ((pre ++ t :: post).map renderNodeLine) acc =
        Except.ok (some t.1) := by
  intro pre
  induction pre with
  | nil =>
    intro t post acc hok _ hmatch
    obtain ⟨o1, o2, o3⟩ := hok t (by simp)
    have e := pySplit_renderNodeLine (okField_space_not_mem o1)
      (okField_space_not_mem o2) (okField_space_not_mem o3)
    simp only [List.nil_append, List.map_cons, deleteNodeLoop, e]
    rw [if_pos hmatch]
  | cons u pre' ih =>
    intro t post acc hok hnm hmatch
    obtain ⟨o1, o2, o3⟩ := hok u (by simp)
    have e := pySplit_renderNodeLine (okField_space_not_mem o1)
      (okField_space_not_mem o2) (okField_space_not_mem o3)
    have hnmu := hnm u (List.mem_cons_self _ _)
    simp only [List.cons_append, List.map_cons, deleteNodeLoop, e]
    rw [if_neg hnmu]
    exact ih t post (some u.1)
      (fun v hv => hok v (by simp only [List.cons_append, List.mem_cons]; exact Or.inr hv))
      (fun v hv => hnm v (List.mem_cons_of_mem _ hv))
      hmatch

/-- C10: when no line of the registry output has the requested name,
`delete_node` passes the id parsed from the LAST line to the forced removal
(`crm_node --force -R`), not an absence signal, so some other node is
force-removed; when at least one line matches, the first matching line's id is
used. -/
theorem delete_node_target_spec :
    (∀ (ts : List (List Char × List Char × List Char))
      (tlast : List Char × List Char × List Char) (nodename : List Char),
      (∀ t ∈ ts ++ [tlast], okField t.1 ∧ okField t.2.1 ∧ okField t.2.2) →
      (∀ t ∈ ts ++ [tlast], t.2.1 ≠ nodename) →
      delete_node_target (joinWith '\n' ((ts ++ [tlast]).map renderNodeLine))
        nodename = Except.ok (some tlast.1)) ∧
    (∀ (pre : List (List Char × List Char × List Char))
      (t : List Char × List Char × List Char)
      (post : List (List Char × List Char × List Char)) (nodename : List Char),
      (∀ u ∈ pre ++ t :: post, okField u.1 ∧ okField u.2.1 ∧ okField u.2.2) →
      (∀ u ∈ pre, u.2.1 ≠ nodename) → t.2.1 = nodename →
      delete_node_target (joinWith '\n' ((pre ++ t :: post).map renderNodeLine))
        nodename = Except.ok (some t.1)) := by
  constructor
  · intro ts tlast nodename hok hnm
    unfold delete_node_target
    rw [joinWith_split (by simp)
      (fun l hl => by
        obtain ⟨t, ht, rfl⟩ := List.mem_map.mp hl
        exact newline_not_mem_renderNodeLine (hok t ht).1 (hok t ht).2.1
          (hok t ht).2.2)]
    exact deleteNodeLoop_no_match nodename ts tlast none hok hnm
  · intro pre t post nodename hok hnm hmatch
    unfold delete_node_target
    rw [joinWith_split (by simp)
      (fun l hl => by
        obtain ⟨u, hu, rfl⟩ := List.mem_map.mp hl
        exact newline_not_mem_renderNodeLine (hok u hu).1 (hok u hu).2.1
          (hok u hu).2.2)]
    exact deleteNodeLoop_match nodename pre t post none hok hnm hmatch

/-- C10 witness: with registry rows for node-a (id 1) and node-b (id 2) and
the non-matching request "node-x", the forced removal targets id 2 (the last
line); with the matching request "node-a" it targets id 1. -/
theorem delete_node_target_spec_witness :
    delete_node_target
        (joinWith '\n'
          (([("1".toList, "node-a".toList, "member".toList),
             ("2".toList, "node-b".toList, "lost".toList)]).map renderNodeLine))
        "node-x".toList = Except.ok (some "2".toList) ∧
    delete_node_target
        (joinWith '\n'
          (([("1".toList, "node-a".toList, "member".toList),
             ("2".toList, "node-b".toList, "lost".toList)]).map renderNodeLine))
        "node-a".toList = Except.ok (some "1".toList) :=
  ⟨delete_node_target_spec.1 [("1".toList, "node-a".toList, "member".toList)]
      ("2".toList, "node-b".toList, "lost".toList) "node-x".toList
      (by decide) (by decide),
   delete_node_target_spec.2 []
      ("1".toList, "node-a".toList, "member".toList)
      [("2".toList, "node-b".toList, "lost".toList)] "node-a".toList
      (by decide) (by decide) (by decide)⟩

/-! ## Claim C5 -/

/-- C5: in the resource-manager bootstrap, the fencing-primitive create is
attempted unconditionally; if the create fails and the subsequent existence
check (`crm resource show st-fencing`) exits 0, the function returns success
without raising and without issuing any of the cluster-property or
resource-default commands; if the existence check also fails, the original
create failure is propagated as fatal. -/
theorem configure_pacemaker_fencing_race (run : List String → Nat × String × String)
    (crmNodeOut : List Char) (sz : Nat)
    (hsz : get_cluster_size crmNodeOut = some sz) :
    stFencingCreate ∈ (configure_pacemaker_tail run crmNodeOut).trace ∧
    ((run stFencingCreate).1 ≠ 0 → (run stFencingShow).1 = 0 →
      (configure_pacemaker_tail run crmNodeOut).raised = false ∧
      (configure_pacemaker_tail run crmNodeOut).trace =
        unconfigureFencingCmds ++ [stFencingCreate, stFencingShow] ∧
      ∀ nqp c, c ∈ crm_configure_cmds nqp →
        c ∉ (configure_pacemaker_tail run crmNodeOut).trace) ∧
    ((run stFencingCreate).1 ≠ 0 → (run stFencingShow).1 ≠ 0 →
      (configure_pacemaker_tail run crmNodeOut).raised = true ∧
      (configure_pacemaker_tail run crmNodeOut).trace =
        unconfigureFencingCmds ++ [stFencingCreate, stFencingShow]) := by
  have hTail : configure_pacemaker_tail run crmNodeOut =
      (if (run stFencingCreate).1 = 0 then
        { trace := unconfigureFencingCmds ++ stFencingCreate ::
            (tryRunSeq run
              (crm_configure_cmds (if sz > 2 then "stop" else "ignore"))).1,
          raised := (tryRunSeq run
            (crm_configure_cmds (if sz > 2 then "stop" else "ignore"))).2 }
      else
        if (run stFencingShow).1 = 0 then
          { trace := unconfigureFencingCmds ++ [stFencingCreate, stFencingShow],
            raised := false }
        else
          { trace := unconfigureFencingCmds ++ [stFencingCreate, stFencingShow],
            raised := true }) := by
    unfold configure_pacemaker_tail
    rw [hsz]
  refine ⟨?_, fun hc hs => ?_, fun hc hs => ?_⟩
  · rw [hTail]
    by_cases hcr : (run stFencingCreate).1 = 0
    · rw [if_pos hcr]
      simp
    · rw [if_neg hcr]
      by_cases hsh : (run stFencingShow).1 = 0
      · rw [if_pos hsh]
        simp
      · rw [if_neg hsh]
        simp
  · have hT : configure_pacemaker_tail run crmNodeOut =
        { trace := unconfigureFencingCmds ++ [stFencingCreate, stFencingShow],
          raised := false } := by
      rw [hTail, if_neg hc, if_pos hs]
    refine ⟨by rw [hT], by rw [hT], fun nqp c hcp => ?_⟩
    rw [hT]
    simp only [crm_configure_cmds, List.mem_cons, List.not_mem_nil,
      or_false] at hcp
    rcases hcp with rfl | rfl | rfl | rfl | rfl | rfl | rfl <;>
      simp [unconfigureFencingCmds, stFencingCreate, stFencingShow]
  · have hT : configure_pacemaker_tail run crmNodeOut =
        { trace := unconfigureFencingCmds ++ [stFencingCreate, stFencingShow],
          raised := true } := by
      rw [hTail, if_neg hc, if_neg hs]
    exact ⟨by rw [hT], by rw [hT]⟩

/-- C5 witness: with a two-node registry, a failing create command and a
succeeding existence check, the bootstrap tail returns success and issues no
property or defaults command. -/
theorem configure_pacemaker_fencing_race_witness :
    (configure_pacemaker_tail
        (fun c => if c = stFencingCreate then (1, "", "") else (0, "", ""))
        ("1 node-a member\n2 node-b lost").toList).raised = false ∧
    (configure_pacemaker_tail
        (fun c => if c = stFencingCreate then (1, "", "") else (0, "", ""))
        ("1 node-a member\n2 node-b lost").toList).trace =
      unconfigureFencingCmds ++ [stFencingCreate, stFencingShow] := by
  have h := (configure_pacemaker_fencing_race
    (fun c => if c = stFencingCreate then (1, "", "") else (0, "", ""))
    ("1 node-a member\n2 node-b lost").toList 2 (by decide)).2.1
    (by decide) (by decide)
  exact ⟨h.1, h.2.1⟩

end ManageCorosync
